import Mathlib

/-!
# Verification of the todoki task service

A shallow embedding of `src/api/app/services/task_service.py`,
`src/api/app/services/report_service.py` and the data model in
`src/api/app/models/task.py`.

Modelling choices:
* UUIDs become `Nat` identifiers supplied by the caller (the Python code draws
  them from `uuid4()`); `datetime.now(UTC)` becomes an explicit `now : Int`
  argument (seconds since the epoch), one per service call, since each service
  function takes its timestamps from the same wall clock during one request.
* The SQLAlchemy session is a `DB` value holding the three tables; `db.add`
  of an event/task appends to the corresponding list, so list order is
  insertion order.  A raised Python exception becomes `Except.error`; at the
  transaction boundary an error rolls the unit of work back, which the
  `applyOp` wrapper models by returning the database unchanged.
* Python truthiness of `str | None` (both `None` and `""` are falsy) and of
  `list[str] | None` (both `None` and `[]` are falsy) is modelled explicitly,
  as is `list.index`, which returns the first occurrence or raises.
-/

namespace Todoki

/-- `TaskType` from `models/task.py`: `Todo` or `Stateful`. -/
inductive TaskType
  | TODO
  | STATEFUL
deriving DecidableEq, Repr

/-- `TaskEventType` from `models/task.py`. -/
inductive TaskEventType
  | CREATE
  | DONE
  | OPEN
  | UNARCHIVED
  | ARCHIVED
  | UPDATE_STATE
  | CREATE_COMMENT
deriving DecidableEq, Repr

/-- A row of `task_events`. -/
structure TaskEvent where
  task_id : Nat
  event_type : TaskEventType
  datetime : Int
  state : Option String := none
deriving DecidableEq, Repr

/-- A row of `task_comments`. -/
structure TaskComment where
  task_id : Nat
  create_at : Int
  content : String
deriving DecidableEq, Repr

/-- A row of `tasks`. -/
structure Task where
  id : Nat
  priority : Int
  content : String
  group : String
  task_type : TaskType
  create_at : Int
  done : Bool
  archived : Bool
  current_state : Option String
  states : Option (List String)
deriving DecidableEq, Repr

/-- The database: the three tables the service touches. -/
structure DB where
  tasks : List Task
  events : List TaskEvent
  comments : List TaskComment
deriving DecidableEq, Repr

def DB.empty : DB := ⟨[], [], []⟩

/-- The two domain errors raised by the service
(`core/exceptions.py`: `InvalidStatesError`, `ResourceNotFoundError`). -/
inductive ServiceError
  | invalidStates
  | resourceNotFound
deriving DecidableEq, Repr

/-- `TaskCreate` request schema. -/
structure TaskCreate where
  priority : Int := 0
  content : String
  group : Option String := some "default"
  task_type : TaskType := TaskType.TODO
  states : Option (List String) := none
deriving DecidableEq, Repr

/-- `TaskUpdate` request schema. -/
structure TaskUpdate where
  priority : Int
  content : String
  group : Option String := some "default"
  states : Option (List String) := none
deriving DecidableEq, Repr

/-- `TaskStatusUpdate` request schema. -/
structure TaskStatusUpdate where
  status : String
deriving DecidableEq, Repr

/-- Python truthiness of a `str | None` value: `None` and `""` are falsy. -/
def strTruthy : Option String → Bool
  | none => false
  | some s => !(s == "")

/-- Python truthiness of a `list[str] | None` value: `None` and `[]` are falsy. -/
def listTruthy : Option (List String) → Bool
  | none => false
  | some l => !l.isEmpty

/-- Python `x or "default"` for `x : str | None`. -/
def orDefault (g : Option String) : String :=
  if strTruthy g then g.getD "default" else "default"

/-- Python `list.index`, returning the position of the first occurrence,
or `none` where Python raises `ValueError`. -/
def listIndex (x : String) : List String → Option Nat
  | [] => none
  | y :: ys => if y = x then some 0 else (listIndex x ys).map (· + 1)

/-- `get_task_by_id`: `SELECT ... WHERE Task.id == task_id`, raising
`ResourceNotFoundError` when absent. -/
def get_task_by_id (db : DB) (tid : Nat) : Except ServiceError Task :=
  match db.tasks.find? (fun t => t.id == tid) with
  | some t => .ok t
  | none => .error ServiceError.resourceNotFound

/-- Overwrite the stored row of a loaded-and-mutated task (the ORM writes the
mutated object back on flush). -/
def DB.replaceTask (db : DB) (t : Task) : DB :=
  { db with tasks := db.tasks.map (fun u => if u.id == t.id then t else u) }

/-- `db.add(event)`. -/
def DB.addEvent (db : DB) (e : TaskEvent) : DB :=
  { db with events := db.events ++ [e] }

/-- `create_task` from `task_service.py`. -/
def create_task (db : DB) (now : Int) (id : Nat) (payload : TaskCreate) :
    Except ServiceError (DB × Task) :=
  let check : Except ServiceError (Option String) :=
    if payload.task_type = TaskType.STATEFUL then
      let states := payload.states.getD []
      if states.length < 2 then .error ServiceError.invalidStates
      else .ok states.head?
    else .ok none
  match check with
  | .error e => .error e
  | .ok current_state =>
    let task : Task :=
      { id := id
        priority := payload.priority
        content := payload.content
        group := orDefault payload.group
        task_type := payload.task_type
        create_at := now
        done := false
        archived := false
        current_state := current_state
        states := payload.states }
    let event : TaskEvent := { task_id := id, event_type := TaskEventType.CREATE, datetime := now }
    .ok (({ db with tasks := db.tasks ++ [task] }).addEvent event, task)

/-- The pure re-derivation of `(current_state, task_type)` performed by
`update_task`: preserved when the old current state is truthy and a member of
the new list, else the new list's first element; `Stateful` iff the supplied
list is truthy. -/
def deriveOnUpdate (old : Option String) (newStates : Option (List String)) :
    Option String × TaskType :=
  if listTruthy newStates then
    let l := newStates.getD []
    let cur := if strTruthy old && decide ((old.getD "") ∈ l) then old else l.head?
    (cur, TaskType.STATEFUL)
  else
    (none, TaskType.TODO)

/-- `update_task` from `task_service.py`: edits fields, re-derives
`current_state` and `task_type`, appends no event. -/
def update_task (db : DB) (tid : Nat) (payload : TaskUpdate) :
    Except ServiceError (DB × Task) :=
  match db.tasks.find? (fun t => t.id == tid) with
  | none => .error ServiceError.resourceNotFound
  | some task =>
    let d := deriveOnUpdate task.current_state payload.states
    let task' : Task :=
      { task with
        priority := payload.priority
        content := payload.content
        group := orDefault payload.group
        states := payload.states
        current_state := d.1
        task_type := d.2 }
    .ok (db.replaceTask task', task')

/-- `update_task_status` from `task_service.py`. -/
def update_task_status (db : DB) (now : Int) (tid : Nat) (payload : TaskStatusUpdate) :
    Except ServiceError (DB × Task) :=
  match db.tasks.find? (fun t => t.id == tid) with
  | none => .error ServiceError.resourceNotFound
  | some task =>
    if task.task_type = TaskType.TODO then
      let is_done := payload.status == "Done"
      let task' := { task with done := is_done }
      let event : TaskEvent :=
        { task_id := task.id
          event_type := if is_done then TaskEventType.DONE else TaskEventType.OPEN
          datetime := now }
      .ok ((db.replaceTask task').addEvent event, task')
    else
      let next_state := payload.status
      let states := task.states.getD []
      match listIndex next_state states with
      | none => .error ServiceError.invalidStates
      | some pos =>
        let is_done := pos == states.length - 1
        let task' := { task with current_state := some next_state, done := is_done }
        let ev : TaskEvent :=
          { task_id := task.id
            event_type := TaskEventType.UPDATE_STATE
            datetime := now
            state := some next_state }
        let db1 := (db.replaceTask task').addEvent ev
        let db2 :=
          if is_done then
            db1.addEvent { task_id := task.id, event_type := TaskEventType.DONE, datetime := now }
          else db1
        .ok (db2, task')

/-- `archive_task` from `task_service.py`: no guard on the current flag. -/
def archive_task (db : DB) (now : Int) (tid : Nat) : Except ServiceError (DB × Task) :=
  match db.tasks.find? (fun t => t.id == tid) with
  | none => .error ServiceError.resourceNotFound
  | some task =>
    let task' := { task with archived := true }
    .ok ((db.replaceTask task').addEvent
      { task_id := task.id, event_type := TaskEventType.ARCHIVED, datetime := now }, task')

/-- `unarchive_task` from `task_service.py`. -/
def unarchive_task (db : DB) (now : Int) (tid : Nat) : Except ServiceError (DB × Task) :=
  match db.tasks.find? (fun t => t.id == tid) with
  | none => .error ServiceError.resourceNotFound
  | some task =>
    let task' := { task with archived := false }
    .ok ((db.replaceTask task').addEvent
      { task_id := task.id, event_type := TaskEventType.UNARCHIVED, datetime := now }, task')

/-- `delete_task` from `task_service.py`; the `ondelete="CASCADE"` foreign keys
remove the task's events and comments. -/
def delete_task (db : DB) (tid : Nat) : Except ServiceError DB :=
  match db.tasks.find? (fun t => t.id == tid) with
  | none => .error ServiceError.resourceNotFound
  | some task =>
    .ok { tasks := db.tasks.filter (fun u => !(u.id == task.id))
          events := db.events.filter (fun e => !(e.task_id == task.id))
          comments := db.comments.filter (fun c => !(c.task_id == task.id)) }

/-- `add_task_comment` from `task_service.py`: adds a `TaskComment` row and
nothing else. -/
def add_task_comment (db : DB) (now : Int) (tid : Nat) (content : String) :
    Except ServiceError (DB × TaskComment) :=
  match db.tasks.find? (fun t => t.id == tid) with
  | none => .error ServiceError.resourceNotFound
  | some task =>
    let comment : TaskComment := { task_id := task.id, create_at := now, content := content }
    .ok ({ db with comments := db.comments ++ [comment] }, comment)

/-- One inbound command of the task command service. -/
inductive Op
  | create (id : Nat) (now : Int) (payload : TaskCreate)
  | update (tid : Nat) (payload : TaskUpdate)
  | changeStatus (tid : Nat) (now : Int) (payload : TaskStatusUpdate)
  | archive (tid : Nat) (now : Int)
  | unarchive (tid : Nat) (now : Int)
  | deleteTask (tid : Nat)
  | addComment (tid : Nat) (now : Int) (content : String)
deriving DecidableEq, Repr

/-- Run one command inside its transaction: a domain error rolls the unit of
work back, leaving the database unchanged. -/
def applyOp (db : DB) : Op → DB
  | .create id now p =>
    match create_task db now id p with
    | .ok (db', _) => db'
    | .error _ => db
  | .update tid p =>
    match update_task db tid p with
    | .ok (db', _) => db'
    | .error _ => db
  | .changeStatus tid now p =>
    match update_task_status db now tid p with
    | .ok (db', _) => db'
    | .error _ => db
  | .archive tid now =>
    match archive_task db now tid with
    | .ok (db', _) => db'
    | .error _ => db
  | .unarchive tid now =>
    match unarchive_task db now tid with
    | .ok (db', _) => db'
    | .error _ => db
  | .deleteTask tid =>
    match delete_task db tid with
    | .ok db' => db'
    | .error _ => db
  | .addComment tid now content =>
    match add_task_comment db now tid content with
    | .ok (db', _) => db'
    | .error _ => db

/-- The databases reachable through the service's operations, starting empty. -/
def runOps (ops : List Op) : DB :=
  ops.foldl applyOp DB.empty

/-- `ReportPeriod` from `schemas/report.py`. -/
inductive ReportPeriod
  | today
  | week
  | month
deriving DecidableEq, Repr

/-- `ReportResponse` from `schemas/report.py`. -/
structure ReportResponse where
  period : ReportPeriod
  created_count : Nat
  done_count : Nat
  archived_count : Nat
  state_changes_count : Nat
  comments_count : Nat
deriving DecidableEq, Repr

/-- `(t AT TIME ZONE 'Asia/Hong_Kong')::date` for a UTC timestamp `t` in
seconds: Hong Kong is a fixed UTC+8 zone with no daylight saving, so the local
calendar day is the floor division of `t + 8h` by one day. -/
def hkDate (t : Int) : Int := (t + 8 * 3600).fdiv 86400

/-- The `WHERE` date filter of `get_report`: `today` compares Hong Kong
calendar dates, `week`/`month` compare against `NOW() - INTERVAL '7|30 days'`. -/
def inPeriod (period : ReportPeriod) (now : Int) (t : Int) : Bool :=
  match period with
  | .today => hkDate t == hkDate now
  | .week => decide (now - 7 * 86400 ≤ t)
  | .month => decide (now - 30 * 86400 ≤ t)

/-- `get_report` from `report_service.py`: one aggregate query over
`task_events` restricted to the period window, with one `COUNT(*) FILTER`
per event type.  The query is a plain `SELECT`: it reads the event table and
mutates nothing. -/
def get_report (events : List TaskEvent) (now : Int) (period : ReportPeriod) :
    ReportResponse :=
  let rows := events.filter (fun e => inPeriod period now e.datetime)
  { period := period
    created_count := rows.countP (fun e => e.event_type == TaskEventType.CREATE)
    done_count := rows.countP (fun e => e.event_type == TaskEventType.DONE)
    archived_count := rows.countP (fun e => e.event_type == TaskEventType.ARCHIVED)
    state_changes_count := rows.countP (fun e => e.event_type == TaskEventType.UPDATE_STATE)
    comments_count := rows.countP (fun e => e.event_type == TaskEventType.CREATE_COMMENT) }

/-! ## Helper lemmas -/

theorem listIndex_eq_none_iff (x : String) (l : List String) :
    listIndex x l = none ↔ x ∉ l := by
  induction l with
  | nil => simp [listIndex]
  | cons y ys ih =>
    by_cases h : y = x
    · simp [listIndex, h]
    · cases hi : listIndex x ys with
      | none =>
        simp only [listIndex, if_neg h, hi, Option.map_none']
        simp [Ne.symm h, ih.mp hi]
      | some i =>
        simp only [listIndex, if_neg h, hi, Option.map_some']
        have hx : x ∈ ys := by
          by_contra hx
          rw [ih.mpr hx] at hi
          exact Option.noConfusion hi
        simp [hx]

theorem listIndex_mem {x : String} {l : List String} {pos : Nat}
    (h : listIndex x l = some pos) : x ∈ l := by
  by_contra hx
  rw [← listIndex_eq_none_iff x l] at hx
  simp [hx] at h

theorem listIndex_lt_length {x : String} {l : List String} {pos : Nat}
    (h : listIndex x l = some pos) : pos < l.length := by
  induction l generalizing pos with
  | nil => simp [listIndex] at h
  | cons y ys ih =>
    by_cases hy : y = x
    · simp [listIndex, hy] at h
      simp only [List.length_cons]
      omega
    · simp only [listIndex, if_neg hy] at h
      cases hi : listIndex x ys with
      | none => simp [hi] at h
      | some i =>
        simp only [hi, Option.map_some', Option.some.injEq] at h
        have := ih hi
        simp only [List.length_cons]
        omega

/-! ## Fixtures for witnesses and counterexamples -/

/-- A stateful task matching the spec's worked example. -/
def sampleStateful : Task :=
  { id := 0, priority := 0, content := "write spec", group := "default"
    task_type := TaskType.STATEFUL, create_at := 0, done := false, archived := false
    current_state := some "Draft", states := some ["Draft", "Review", "Published"] }

/-- A simple (non-stateful) task. -/
def sampleTodo : Task :=
  { id := 1, priority := 0, content := "buy milk", group := "default"
    task_type := TaskType.TODO, create_at := 0, done := false, archived := false
    current_state := none, states := none }

def sampleDB : DB :=
  { tasks := [sampleStateful, sampleTodo]
    events := [{ task_id := 0, event_type := TaskEventType.CREATE, datetime := 0 }]
    comments := [] }

/-! ## C1 -/

/-- C1: for every stateful task whose requested transition value occurs in its
states list (at first position `pos`, as Python's `list.index` matches), the
status change succeeds, sets `done` to `true` iff the matched entry is at the
last position of the list, and appends exactly two events (an update-state
event carrying the requested value, then a done event) when `done` becomes
true, and exactly the one update-state event, with `done` set `false`,
otherwise. -/
theorem stateful_transition_done_iff_last (db : DB) (now : Int) (tid : Nat)
    (s : String) (t : Task) (pos : Nat)
    (hfind : db.tasks.find? (fun u => u.id == tid) = some t)
    (htype : t.task_type = TaskType.STATEFUL)
    (hidx : listIndex s (t.states.getD []) = some pos) :
    ∃ db' t', update_task_status db now tid ⟨s⟩ = .ok (db', t') ∧
      (t'.done = true ↔ pos = (t.states.getD []).length - 1) ∧
      (pos = (t.states.getD []).length - 1 →
        t'.done = true ∧
        db'.events = db.events ++
          [{ task_id := t.id, event_type := TaskEventType.UPDATE_STATE,
             datetime := now, state := some s },
           { task_id := t.id, event_type := TaskEventType.DONE, datetime := now }]) ∧
      (pos ≠ (t.states.getD []).length - 1 →
        t'.done = false ∧
        db'.events = db.events ++
          [{ task_id := t.id, event_type := TaskEventType.UPDATE_STATE,
             datetime := now, state := some s }]) := by
  have hne : t.task_type ≠ TaskType.TODO := by rw [htype]; intro h; exact TaskType.noConfusion h
  simp only [update_task_status, hfind, if_neg hne, hidx]
  by_cases hdone : pos = (t.states.getD []).length - 1
  · refine ⟨_, _, rfl, ?_, ?_, ?_⟩
    · simp [hdone]
    · intro _
      simp [hdone, DB.addEvent, DB.replaceTask]
    · intro h
      exact absurd hdone h
  · refine ⟨_, _, rfl, ?_, ?_, ?_⟩
    · simp [hdone]
    · intro h
      exact absurd h hdone
    · intro _
      simp [hdone, DB.addEvent, DB.replaceTask]

/-- Witness for C1: transitioning the sample stateful task (states
`["Draft", "Review", "Published"]`) to `"Published"`, which sits at the last
position. -/
theorem stateful_transition_done_iff_last_witness :
    ∃ db' t', update_task_status sampleDB 7 0 ⟨"Published"⟩ = .ok (db', t') ∧
      (t'.done = true ↔ 2 = ((sampleStateful.states.getD []).length - 1)) ∧
      (2 = (sampleStateful.states.getD []).length - 1 →
        t'.done = true ∧
        db'.events = sampleDB.events ++
          [{ task_id := sampleStateful.id, event_type := TaskEventType.UPDATE_STATE,
             datetime := 7, state := some "Published" },
           { task_id := sampleStateful.id, event_type := TaskEventType.DONE, datetime := 7 }]) ∧
      (2 ≠ (sampleStateful.states.getD []).length - 1 →
        t'.done = false ∧
        db'.events = sampleDB.events ++
          [{ task_id := sampleStateful.id, event_type := TaskEventType.UPDATE_STATE,
             datetime := 7, state := some "Published" }]) :=
  stateful_transition_done_iff_last sampleDB 7 0 "Published" sampleStateful 2
    (by decide) (by decide) (by decide)

/-! ## C2 -/

/-- C2: for every stateful task and every requested transition value that does
not occur in its states list, the status change raises the invalid-states
error, and the unit of work leaves the database — the task, all its fields and
the event log — exactly as it was. -/
theorem stateful_transition_invalid_unchanged (db : DB) (now : Int) (tid : Nat)
    (s : String) (t : Task)
    (hfind : db.tasks.find? (fun u => u.id == tid) = some t)
    (htype : t.task_type = TaskType.STATEFUL)
    (hmem : s ∉ t.states.getD []) :
    update_task_status db now tid ⟨s⟩ = .error ServiceError.invalidStates ∧
    applyOp db (Op.changeStatus tid now ⟨s⟩) = db := by
  have hne : t.task_type ≠ TaskType.TODO := by
    rw [htype]; intro h; exact TaskType.noConfusion h
  have hidx : listIndex s (t.states.getD []) = none :=
    (listIndex_eq_none_iff s (t.states.getD [])).mpr hmem
  refine ⟨?_, ?_⟩
  · simp only [update_task_status, hfind, if_neg hne, hidx]
  · simp only [applyOp, update_task_status, hfind, if_neg hne, hidx]

/-- Witness for C2: `"Rejected"` does not occur in the sample task's states
list, so the transition fails and the database is untouched. -/
theorem stateful_transition_invalid_unchanged_witness :
    update_task_status sampleDB 7 0 ⟨"Rejected"⟩ = .error ServiceError.invalidStates ∧
    applyOp sampleDB (Op.changeStatus 0 7 ⟨"Rejected"⟩) = sampleDB :=
  stateful_transition_invalid_unchanged sampleDB 7 0 "Rejected" sampleStateful
    (by decide) (by decide) (by decide)

/-! ## C3 -/

/-- C3 counterexample: the claim says that for a simple task any value other
than the two sentinels is rejected as invalid.  `"Bogus"` is neither sentinel,
yet the status change on the simple sample task succeeds, sets `done` to
`false` and appends an open event — nothing is rejected. -/
theorem todo_status_bogus_accepted :
    ("Bogus" ≠ "Done" ∧ "Bogus" ≠ "Open") ∧
    update_task_status sampleDB 7 1 ⟨"Bogus"⟩ =
      .ok ({ sampleDB with
              events := sampleDB.events ++
                [{ task_id := 1, event_type := TaskEventType.OPEN, datetime := 7 }] },
           sampleTodo) :=
  ⟨by decide, by rfl⟩

/-- C3 amended: for every simple task (workflow kind Todo), the status change
never rejects a value: `done` is set to `true` exactly when the value is the
mark-done sentinel `"Done"`, in which case one done event is appended, and
every other value (the mark-open sentinel `"Open"` included) sets `done` to
`false` and appends one open event. -/
theorem todo_status_never_rejects (db : DB) (now : Int) (tid : Nat)
    (s : String) (t : Task)
    (hfind : db.tasks.find? (fun u => u.id == tid) = some t)
    (htype : t.task_type = TaskType.TODO) :
    ∃ db' t', update_task_status db now tid ⟨s⟩ = .ok (db', t') ∧
      t'.done = (s == "Done") ∧
      db'.events = db.events ++
        [{ task_id := t.id,
           event_type := if s == "Done" then TaskEventType.DONE else TaskEventType.OPEN,
           datetime := now }] := by
  simp only [update_task_status, hfind, if_pos htype]
  exact ⟨_, _, rfl, rfl, by simp [DB.addEvent, DB.replaceTask]⟩

/-- Witness for C3's amended theorem: the mark-done sentinel on the simple
sample task. -/
theorem todo_status_never_rejects_witness :
    ∃ db' t', update_task_status sampleDB 7 1 ⟨"Done"⟩ = .ok (db', t') ∧
      t'.done = ("Done" == "Done") ∧
      db'.events = sampleDB.events ++
        [{ task_id := sampleTodo.id,
           event_type := if "Done" == "Done" then TaskEventType.DONE else TaskEventType.OPEN,
           datetime := 7 }] :=
  todo_status_never_rejects sampleDB 7 1 "Done" sampleTodo (by decide) (by decide)

/-! ## C4 -/

/-- C4 counterexample: the claim says creation fails when the supplied states
list has fewer than 2 **distinct** entries.  `["a", "a"]` has a single
distinct entry, yet creation succeeds and persists one task (with
`current_state = "a"`, `done = false`) and one create event. -/
theorem create_duplicate_states_accepted :
    ((["a", "a"] : List String).dedup.length < 2) ∧
    (create_task DB.empty 3 5
        { content := "dup", task_type := TaskType.STATEFUL, states := some ["a", "a"] }
      ).toOption.map
        (fun r => (r.1.tasks.length, r.1.events.length, r.2.current_state, r.2.done))
      = some (1, 1, some "a", false) :=
  ⟨by decide, by rfl⟩

/-- C4 amended: for every create request with custom-state workflow, the
length of the supplied states list (counting duplicates, not distinct
entries) decides the outcome: with fewer than 2 entries the operation fails
with the invalid-states error and the unit of work persists nothing;
otherwise the created task has `current_state` equal to the first element of
the list, `done = false`, and exactly one create event is appended in the
same unit of work. -/
theorem create_stateful_validation (db : DB) (now : Int) (id : Nat) (p : TaskCreate)
    (htype : p.task_type = TaskType.STATEFUL) :
    ((p.states.getD []).length < 2 →
      create_task db now id p = .error ServiceError.invalidStates ∧
      applyOp db (Op.create id now p) = db) ∧
    (2 ≤ (p.states.getD []).length →
      ∃ db' t', create_task db now id p = .ok (db', t') ∧
        t'.current_state = (p.states.getD []).head? ∧
        t'.done = false ∧
        db'.tasks = db.tasks ++ [t'] ∧
        db'.events = db.events ++
          [{ task_id := id, event_type := TaskEventType.CREATE, datetime := now }] ∧
        db'.comments = db.comments) := by
  constructor
  · intro hlen
    refine ⟨?_, ?_⟩
    · simp only [create_task, if_pos htype, if_pos hlen]
    · simp only [applyOp, create_task, if_pos htype, if_pos hlen]
  · intro hlen
    have hlt : ¬((p.states.getD []).length < 2) := by omega
    simp only [create_task, if_pos htype, if_neg hlt]
    exact ⟨_, _, rfl, rfl, rfl, by simp [DB.addEvent], by simp [DB.addEvent], rfl⟩

/-- Witness for C4's amended theorem at a two-state create request. -/
theorem create_stateful_validation_witness :
    let p : TaskCreate :=
      { content := "w", task_type := TaskType.STATEFUL, states := some ["a", "b"] }
    ((p.states.getD []).length < 2 →
      create_task DB.empty 3 5 p = .error ServiceError.invalidStates ∧
      applyOp DB.empty (Op.create 5 3 p) = DB.empty) ∧
    (2 ≤ (p.states.getD []).length →
      ∃ db' t', create_task DB.empty 3 5 p = .ok (db', t') ∧
        t'.current_state = (p.states.getD []).head? ∧
        t'.done = false ∧
        db'.tasks = DB.empty.tasks ++ [t'] ∧
        db'.events = DB.empty.events ++
          [{ task_id := 5, event_type := TaskEventType.CREATE, datetime := 3 }] ∧
        db'.comments = DB.empty.comments) :=
  create_stateful_validation DB.empty 3 5
    { content := "w", task_type := TaskType.STATEFUL, states := some ["a", "b"] } (by decide)

/-! ## C6 -/

/-- C6: for every stateful task and every requested transition value occurring
in its states list, the status change succeeds, moves the current-state
pointer to the matched entry, and appends an update-state event carrying that
value (possibly followed by further events).  No hypothesis excludes the case
where the requested value equals the task's current state: re-selecting the
current state succeeds and re-emits the event all the same. -/
theorem stateful_transition_moves_pointer (db : DB) (now : Int) (tid : Nat)
    (s : String) (t : Task)
    (hfind : db.tasks.find? (fun u => u.id == tid) = some t)
    (htype : t.task_type = TaskType.STATEFUL)
    (hmem : s ∈ t.states.getD []) :
    ∃ db' t' rest, update_task_status db now tid ⟨s⟩ = .ok (db', t') ∧
      t'.current_state = some s ∧
      db'.events = db.events ++
        ({ task_id := t.id, event_type := TaskEventType.UPDATE_STATE,
           datetime := now, state := some s } :: rest) := by
  have hne : t.task_type ≠ TaskType.TODO := by
    rw [htype]; intro h; exact TaskType.noConfusion h
  obtain ⟨pos, hidx⟩ : ∃ pos, listIndex s (t.states.getD []) = some pos := by
    cases h : listIndex s (t.states.getD []) with
    | none => exact absurd ((listIndex_eq_none_iff _ _).mp h) (by simp [hmem])
    | some pos => exact ⟨pos, rfl⟩
  simp only [update_task_status, hfind, if_neg hne, hidx]
  by_cases hdone : pos = (t.states.getD []).length - 1
  · refine ⟨_, _, [{ task_id := t.id, event_type := TaskEventType.DONE, datetime := now }],
      rfl, rfl, ?_⟩
    simp [hdone, DB.addEvent, DB.replaceTask]
  · refine ⟨_, _, [], rfl, rfl, ?_⟩
    simp [hdone, DB.addEvent, DB.replaceTask]

/-- Witness for C6: re-selecting `"Draft"`, the sample task's current state,
succeeds and re-emits an update-state event. -/
theorem stateful_transition_moves_pointer_witness :
    sampleStateful.current_state = some "Draft" ∧
    ∃ db' t' rest, update_task_status sampleDB 7 0 ⟨"Draft"⟩ = .ok (db', t') ∧
      t'.current_state = some "Draft" ∧
      db'.events = sampleDB.events ++
        ({ task_id := sampleStateful.id, event_type := TaskEventType.UPDATE_STATE,
           datetime := 7, state := some "Draft" } :: rest) :=
  ⟨by decide,
   stateful_transition_moves_pointer sampleDB 7 0 "Draft" sampleStateful
     (by decide) (by decide) (by decide)⟩

/-! ## C7 -/

/-- A database holding one stateful task whose current state is the empty
string (reachable: created with states `["", "x"]`). -/
def emptyNameDB : DB :=
  runOps [Op.create 0 0 { content := "x", task_type := TaskType.STATEFUL,
                          states := some ["", "x"] }]

/-- C7 counterexample: the claim says that whenever the previously-current
state name exists in the new list, `current_state` is preserved.  The task
below has current state `""`, and `""` occurs in the new list
`["c", ""]` — yet after the edit `current_state` is `"c"`, the new list's
first element, because the code tests the old value with Python truthiness
(`task.current_state and task.current_state in payload.states`) and the empty
string is falsy. -/
theorem update_empty_current_state_not_preserved :
    emptyNameDB.tasks.map Task.current_state = [some ""] ∧
    ("" ∈ (["c", ""] : List String)) ∧
    (update_task emptyNameDB 0
        { priority := 0, content := "x", states := some ["c", ""] }).toOption.map
      (fun r => r.2.current_state) = some (some "c") :=
  ⟨by rfl, by decide, by rfl⟩

/-- C7 amended: for every task edit that replaces the custom-state list with a
non-empty list, the workflow kind becomes custom; the previously-current state
is preserved when it is non-empty (Python truthiness) and occurs in the new
list, and otherwise — including when the previous current state is the empty
string or absent from the new list — `current_state` becomes the new list's
first element.  Supplying no list (or an empty one) makes the kind simple and
clears `current_state`.  The edit appends no event. -/
theorem update_states_rederivation (db : DB) (tid : Nat) (p : TaskUpdate) (t : Task)
    (hfind : db.tasks.find? (fun u => u.id == tid) = some t) :
    ∃ db' t', update_task db tid p = .ok (db', t') ∧
      db'.events = db.events ∧
      t'.states = p.states ∧
      (∀ l, p.states = some l → l ≠ [] →
        t'.task_type = TaskType.STATEFUL ∧
        (∀ s, t.current_state = some s → s ≠ "" → s ∈ l → t'.current_state = some s) ∧
        ((∀ s, t.current_state = some s → s = "" ∨ s ∉ l) → t'.current_state = l.head?)) ∧
      ((p.states = none ∨ p.states = some []) →
        t'.task_type = TaskType.TODO ∧ t'.current_state = none) := by
  simp only [update_task, hfind]
  refine ⟨_, _, rfl, by simp [DB.replaceTask], rfl, ?_, ?_⟩
  · intro l hps hl
    rw [hps]
    have htr : listTruthy (some l) = true := by
      simp [listTruthy, List.isEmpty_iff, hl]
    refine ⟨by simp [deriveOnUpdate, htr], ?_, ?_⟩
    · intro s hs hne hmem
      simp [deriveOnUpdate, htr, hs, strTruthy, hne, hmem]
    · intro habs
      cases hs : t.current_state with
      | none => simp [deriveOnUpdate, htr, hs, strTruthy]
      | some s =>
        rcases habs s hs with h | h
        · simp [deriveOnUpdate, htr, hs, strTruthy, h]
        · simp [deriveOnUpdate, htr, hs, strTruthy, h]
  · intro h
    have htr : listTruthy p.states = false := by
      rcases h with h | h <;> simp [h, listTruthy]
    constructor <;> simp [deriveOnUpdate, htr]

/-- Witness for C7's amended theorem: replacing the sample task's list with
`["Review", "Draft"]` — the old current state `"Draft"` survives in the new
list. -/
theorem update_states_rederivation_witness :
    ∃ db' t', update_task sampleDB 0
        { priority := 1, content := "edited", states := some ["Review", "Draft"] } =
        .ok (db', t') ∧
      db'.events = sampleDB.events ∧
      t'.states = some ["Review", "Draft"] ∧
      (∀ l, (some ["Review", "Draft"] : Option (List String)) = some l → l ≠ [] →
        t'.task_type = TaskType.STATEFUL ∧
        (∀ s, sampleStateful.current_state = some s → s ≠ "" → s ∈ l →
          t'.current_state = some s) ∧
        ((∀ s, sampleStateful.current_state = some s → s = "" ∨ s ∉ l) →
          t'.current_state = l.head?)) ∧
      ((some ["Review", "Draft"] = (none : Option (List String)) ∨
        some ["Review", "Draft"] = some ([] : List String)) →
        t'.task_type = TaskType.TODO ∧ t'.current_state = none) :=
  update_states_rederivation sampleDB 0
    { priority := 1, content := "edited", states := some ["Review", "Draft"] }
    sampleStateful (by decide)

/-! ## C8 -/

/-- C8: for every existing task, archiving sets `archived := true` and appends
exactly one archived event, and unarchiving sets `archived := false` and
appends exactly one unarchived event.  The returned task is the old task with
only the `archived` field changed, and no hypothesis constrains the prior
value of the flag: both operations succeed and emit their event even when the
flag already has the target value. -/
theorem archive_unarchive_always_emit (db : DB) (now : Int) (tid : Nat) (t : Task)
    (hfind : db.tasks.find? (fun u => u.id == tid) = some t) :
    (∃ db', archive_task db now tid = .ok (db', { t with archived := true }) ∧
      db'.events = db.events ++
        [{ task_id := t.id, event_type := TaskEventType.ARCHIVED, datetime := now }] ∧
      db'.comments = db.comments) ∧
    (∃ db', unarchive_task db now tid = .ok (db', { t with archived := false }) ∧
      db'.events = db.events ++
        [{ task_id := t.id, event_type := TaskEventType.UNARCHIVED, datetime := now }] ∧
      db'.comments = db.comments) := by
  constructor
  · simp only [archive_task, hfind]
    exact ⟨_, rfl, by simp [DB.addEvent, DB.replaceTask], by simp [DB.addEvent, DB.replaceTask]⟩
  · simp only [unarchive_task, hfind]
    exact ⟨_, rfl, by simp [DB.addEvent, DB.replaceTask], by simp [DB.addEvent, DB.replaceTask]⟩

/-- Witness for C8: archiving and unarchiving the sample stateful task. -/
theorem archive_unarchive_always_emit_witness :
    (∃ db', archive_task sampleDB 9 0 = .ok (db', { sampleStateful with archived := true }) ∧
      db'.events = sampleDB.events ++
        [{ task_id := sampleStateful.id, event_type := TaskEventType.ARCHIVED, datetime := 9 }] ∧
      db'.comments = sampleDB.comments) ∧
    (∃ db', unarchive_task sampleDB 9 0 = .ok (db', { sampleStateful with archived := false }) ∧
      db'.events = sampleDB.events ++
        [{ task_id := sampleStateful.id, event_type := TaskEventType.UNARCHIVED, datetime := 9 }] ∧
      db'.comments = sampleDB.comments) :=
  archive_unarchive_always_emit sampleDB 9 0 sampleStateful (by decide)

/-! ## C9 -/

/-- C9: for every period selector the report returns, for each of the five
event kinds (create, done, archived, update-state, comment-created), the
number of events of that kind whose timestamps fall in the period's window;
the window is the Hong-Kong calendar day of the query moment for `today` and
a rolling 7-day / 30-day lookback from the query moment for `week` / `month`
(the three explicit `inPeriod` equations).  When no event falls in the
window, every count is zero and no error occurs.  `get_report` is a plain
function of the event table — the underlying query is a `SELECT`, so no state
is mutated. -/
theorem report_counts_window (events : List TaskEvent) (now : Int) (period : ReportPeriod) :
    (get_report events now period).period = period ∧
    (get_report events now period).created_count =
      (events.filter (fun e =>
        (e.event_type == TaskEventType.CREATE) && inPeriod period now e.datetime)).length ∧
    (get_report events now period).done_count =
      (events.filter (fun e =>
        (e.event_type == TaskEventType.DONE) && inPeriod period now e.datetime)).length ∧
    (get_report events now period).archived_count =
      (events.filter (fun e =>
        (e.event_type == TaskEventType.ARCHIVED) && inPeriod period now e.datetime)).length ∧
    (get_report events now period).state_changes_count =
      (events.filter (fun e =>
        (e.event_type == TaskEventType.UPDATE_STATE) && inPeriod period now e.datetime)).length ∧
    (get_report events now period).comments_count =
      (events.filter (fun e =>
        (e.event_type == TaskEventType.CREATE_COMMENT) && inPeriod period now e.datetime)).length ∧
    (∀ t : Int, inPeriod ReportPeriod.today now t = (hkDate t == hkDate now)) ∧
    (∀ t : Int, inPeriod ReportPeriod.week now t = decide (now - 7 * 86400 ≤ t)) ∧
    (∀ t : Int, inPeriod ReportPeriod.month now t = decide (now - 30 * 86400 ≤ t)) ∧
    ((∀ e ∈ events, inPeriod period now e.datetime = false) →
      get_report events now period =
        { period := period, created_count := 0, done_count := 0, archived_count := 0,
          state_changes_count := 0, comments_count := 0 }) := by
  refine ⟨rfl, ?_, ?_, ?_, ?_, ?_, fun _ => rfl, fun _ => rfl, fun _ => rfl, ?_⟩
  · simp [get_report, List.countP_eq_length_filter, List.filter_filter]
  · simp [get_report, List.countP_eq_length_filter, List.filter_filter]
  · simp [get_report, List.countP_eq_length_filter, List.filter_filter]
  · simp [get_report, List.countP_eq_length_filter, List.filter_filter]
  · simp [get_report, List.countP_eq_length_filter, List.filter_filter]
  · intro h
    have hnil : events.filter (fun e => inPeriod period now e.datetime) = [] := by
      rw [List.filter_eq_nil_iff]
      intro a ha
      simp [h a ha]
    simp [get_report, hnil]

/-- Witness for C9: a one-event log queried in a window that misses it. -/
theorem report_counts_window_witness :
    let ev : TaskEvent := { task_id := 0, event_type := TaskEventType.CREATE, datetime := 0 }
    (get_report [ev] 1000000 ReportPeriod.week).period = ReportPeriod.week ∧
    (get_report [ev] 1000000 ReportPeriod.week).created_count =
      ([ev].filter (fun e =>
        (e.event_type == TaskEventType.CREATE) && inPeriod ReportPeriod.week 1000000 e.datetime)).length ∧
    (get_report [ev] 1000000 ReportPeriod.week).done_count =
      ([ev].filter (fun e =>
        (e.event_type == TaskEventType.DONE) && inPeriod ReportPeriod.week 1000000 e.datetime)).length ∧
    (get_report [ev] 1000000 ReportPeriod.week).archived_count =
      ([ev].filter (fun e =>
        (e.event_type == TaskEventType.ARCHIVED) && inPeriod ReportPeriod.week 1000000 e.datetime)).length ∧
    (get_report [ev] 1000000 ReportPeriod.week).state_changes_count =
      ([ev].filter (fun e =>
        (e.event_type == TaskEventType.UPDATE_STATE) && inPeriod ReportPeriod.week 1000000 e.datetime)).length ∧
    (get_report [ev] 1000000 ReportPeriod.week).comments_count =
      ([ev].filter (fun e =>
        (e.event_type == TaskEventType.CREATE_COMMENT) && inPeriod ReportPeriod.week 1000000 e.datetime)).length ∧
    (∀ t : Int, inPeriod ReportPeriod.today 1000000 t = (hkDate t == hkDate 1000000)) ∧
    (∀ t : Int, inPeriod ReportPeriod.week 1000000 t = decide (1000000 - 7 * 86400 ≤ t)) ∧
    (∀ t : Int, inPeriod ReportPeriod.month 1000000 t = decide (1000000 - 30 * 86400 ≤ t)) ∧
    ((∀ e ∈ [ev], inPeriod ReportPeriod.week 1000000 e.datetime = false) →
      get_report [ev] 1000000 ReportPeriod.week =
        { period := ReportPeriod.week, created_count := 0, done_count := 0, archived_count := 0,
          state_changes_count := 0, comments_count := 0 }) :=
  report_counts_window
    [{ task_id := 0, event_type := TaskEventType.CREATE, datetime := 0 }] 1000000 ReportPeriod.week

/-! ## C5 -/

/-- The per-task state-validity invariant the service actually maintains: a
stateful task carries a present, non-empty states list and a current state
drawn from that list. -/
def TaskWF (t : Task) : Prop :=
  t.task_type = TaskType.STATEFUL →
    ∃ l, t.states = some l ∧ l ≠ [] ∧ ∃ s, t.current_state = some s ∧ s ∈ l

theorem TaskWF_of_fields {t t' : Task} (h : TaskWF t)
    (h1 : t'.task_type = t.task_type) (h2 : t'.states = t.states)
    (h3 : t'.current_state = t.current_state) : TaskWF t' := by
  intro hst
  obtain ⟨l, hl1, hl2, s, hs1, hs2⟩ := h (h1.symm.trans hst)
  exact ⟨l, h2.trans hl1, hl2, s, h3.trans hs1, hs2⟩

theorem deriveOnUpdate_wf (old : Option String) (ns : Option (List String))
    (h : (deriveOnUpdate old ns).2 = TaskType.STATEFUL) :
    ∃ l, ns = some l ∧ l ≠ [] ∧ ∃ s, (deriveOnUpdate old ns).1 = some s ∧ s ∈ l := by
  cases htr : listTruthy ns with
  | false => simp [deriveOnUpdate, htr] at h
  | true =>
    cases ns with
    | none => simp [listTruthy] at htr
    | some l =>
      have hl : l ≠ [] := by simpa [listTruthy, List.isEmpty_iff] using htr
      have hredu : deriveOnUpdate old (some l) =
          (if strTruthy old && decide ((old.getD "") ∈ l) then old else l.head?,
           TaskType.STATEFUL) := by
        simp [deriveOnUpdate, htr]
      refine ⟨l, rfl, hl, ?_⟩
      rw [hredu]
      by_cases hc : (strTruthy old && decide ((old.getD "") ∈ l)) = true
      · rw [if_pos hc]
        cases old with
        | none => simp [strTruthy] at hc
        | some s =>
          have hc' := hc
          simp only [Bool.and_eq_true, decide_eq_true_eq, Option.getD_some] at hc'
          exact ⟨s, rfl, hc'.2⟩
      · rw [if_neg hc]
        cases l with
        | nil => exact absurd rfl hl
        | cons a as => exact ⟨a, rfl, by simp⟩

theorem wf_replace (db : DB) (t' : Task) (h : ∀ t ∈ db.tasks, TaskWF t)
    (h' : TaskWF t') : ∀ t ∈ (db.replaceTask t').tasks, TaskWF t := by
  intro t ht
  simp only [DB.replaceTask] at ht
  obtain ⟨u, hu, hut⟩ := List.mem_map.mp ht
  by_cases hb : (u.id == t'.id) = true
  · rw [if_pos hb] at hut; subst hut; exact h'
  · rw [if_neg hb] at hut; subst hut; exact h u hu

theorem wf_update_status_task (task : Task) (s : String) (d : Bool) (l : List String)
    (hl : task.states = some l) (hmem : s ∈ l) :
    TaskWF { task with current_state := some s, done := d } :=
  fun _ => ⟨l, hl, List.ne_nil_of_mem hmem, s, rfl, hmem⟩

/-- Every service command preserves the state-validity invariant. -/
theorem applyOp_preserves_wf (db : DB) (op : Op)
    (h : ∀ t ∈ db.tasks, TaskWF t) :
    ∀ t ∈ (applyOp db op).tasks, TaskWF t := by
  cases op with
  | create id now p =>
    by_cases ht : p.task_type = TaskType.STATEFUL
    · by_cases hlen : (p.states.getD []).length < 2
      · simp only [applyOp, create_task, if_pos ht, if_pos hlen]
        exact h
      · simp only [applyOp, create_task, if_pos ht, if_neg hlen, DB.addEvent]
        intro t htmem
        rw [List.mem_append] at htmem
        rcases htmem with hm | hm
        · exact h t hm
        · rw [List.mem_singleton] at hm
          subst hm
          intro _
          cases hps : p.states with
          | none => rw [hps] at hlen; simp at hlen
          | some l =>
            cases l with
            | nil => rw [hps] at hlen; simp at hlen
            | cons a as =>
              exact ⟨a :: as, by simp [hps], by simp, a, by simp [hps], by simp⟩
    · simp only [applyOp, create_task, if_neg ht, DB.addEvent]
      intro t htmem
      rw [List.mem_append] at htmem
      rcases htmem with hm | hm
      · exact h t hm
      · rw [List.mem_singleton] at hm
        subst hm
        intro hst
        exact absurd hst ht
  | update tid p =>
    simp only [applyOp]
    cases hf : db.tasks.find? (fun u => u.id == tid) with
    | none => simp only [update_task, hf]; exact h
    | some task =>
      simp only [update_task, hf]
      refine wf_replace db _ h ?_
      intro hst
      obtain ⟨l, hl1, hl2, s, hs1, hs2⟩ := deriveOnUpdate_wf task.current_state p.states hst
      exact ⟨l, hl1, hl2, s, hs1, hs2⟩
  | changeStatus tid now p =>
    simp only [applyOp]
    cases hf : db.tasks.find? (fun u => u.id == tid) with
    | none => simp only [update_task_status, hf]; exact h
    | some task =>
      by_cases ht : task.task_type = TaskType.TODO
      · simp only [update_task_status, hf, if_pos ht, DB.addEvent]
        refine wf_replace db _ h ?_
        exact TaskWF_of_fields (h task (List.mem_of_find?_eq_some hf)) rfl rfl rfl
      · cases hidx : listIndex p.status (task.states.getD []) with
        | none => simp only [update_task_status, hf, if_neg ht, hidx]; exact h
        | some pos =>
          have hmem0 : p.status ∈ task.states.getD [] := listIndex_mem hidx
          obtain ⟨l, hl⟩ : ∃ l, task.states = some l := by
            cases hts : task.states with
            | none => rw [hts] at hmem0; simp at hmem0
            | some l => exact ⟨l, rfl⟩
          have hmem : p.status ∈ l := by rw [hl] at hmem0; simpa using hmem0
          simp only [update_task_status, hf, if_neg ht, hidx]
          by_cases hd : pos = (task.states.getD []).length - 1
          · have hyi : (pos == (task.states.getD []).length - 1) = true := by simpa using hd
            simp only [if_pos hyi, DB.addEvent]
            exact wf_replace db _ h (wf_update_status_task task p.status _ l hl hmem)
          · have hni : ¬((pos == (task.states.getD []).length - 1) = true) := by
              simpa using hd
            simp only [if_neg hni, DB.addEvent]
            exact wf_replace db _ h (wf_update_status_task task p.status _ l hl hmem)
  | archive tid now =>
    simp only [applyOp]
    cases hf : db.tasks.find? (fun u => u.id == tid) with
    | none => simp only [archive_task, hf]; exact h
    | some task =>
      simp only [archive_task, hf, DB.addEvent]
      exact wf_replace db _ h
        (TaskWF_of_fields (h task (List.mem_of_find?_eq_some hf)) rfl rfl rfl)
  | unarchive tid now =>
    simp only [applyOp]
    cases hf : db.tasks.find? (fun u => u.id == tid) with
    | none => simp only [unarchive_task, hf]; exact h
    | some task =>
      simp only [unarchive_task, hf, DB.addEvent]
      exact wf_replace db _ h
        (TaskWF_of_fields (h task (List.mem_of_find?_eq_some hf)) rfl rfl rfl)
  | deleteTask tid =>
    simp only [applyOp]
    cases hf : db.tasks.find? (fun u => u.id == tid) with
    | none => simp only [delete_task, hf]; exact h
    | some task =>
      simp only [delete_task, hf]
      intro t htmem
      exact h t (List.mem_of_mem_filter htmem)
  | addComment tid now content =>
    simp only [applyOp]
    cases hf : db.tasks.find? (fun u => u.id == tid) with
    | none => simp only [add_task_comment, hf]; exact h
    | some task =>
      simp only [add_task_comment, hf]
      exact h

/-- C5 counterexample: the claim requires every reachable task with custom
states to hold at least two distinct entries.  Creating a simple task and then
editing it with the one-element list `["a"]` yields a reachable stateful task
whose states list has a single entry — `update_task` performs no length
validation. -/
theorem reachable_single_state_task :
    ∃ t ∈ (runOps
      [Op.create 0 0 { content := "x" },
       Op.update 0 { priority := 0, content := "x", states := some ["a"] }]).tasks,
      t.task_type = TaskType.STATEFUL ∧ t.states ≠ none ∧
      (t.states.getD []).dedup.length < 2 := by decide

/-- C5 amended: for every database reachable through the service's operations
(create, update, change-status, archive, unarchive, delete, add-comment) and
every task in it, if the task has the custom-state workflow kind then its
states list is present and non-empty and its current state is a member of
that list.  (No operation maintains the original claim's
at-least-two-distinct-entries bound: creation checks only the raw length, so
a duplicated pair passes, and task edits check nothing at all.) -/
theorem reachable_tasks_wf (ops : List Op) :
    ∀ t ∈ (runOps ops).tasks, TaskWF t := by
  suffices hgen : ∀ db : DB, (∀ t ∈ db.tasks, TaskWF t) →
      ∀ t ∈ (ops.foldl applyOp db).tasks, TaskWF t by
    refine hgen DB.empty ?_
    intro t ht
    simp [DB.empty] at ht
  induction ops with
  | nil => intro db h; simpa using h
  | cons op rest ih =>
    intro db h
    exact ih (applyOp db op) (applyOp_preserves_wf db op h)

/-- Witness for C5's amended theorem: the task created by a two-state create
request is well-formed. -/
theorem reachable_tasks_wf_witness :
    TaskWF { id := 0, priority := 0, content := "x", group := "default",
             task_type := TaskType.STATEFUL, create_at := 0, done := false,
             archived := false, current_state := some "a", states := some ["a", "b"] } :=
  reachable_tasks_wf
    [Op.create 0 0 { content := "x", task_type := TaskType.STATEFUL, states := some ["a", "b"] }]
    _ (by decide)

/-! ## C10 -/

/-- Auxiliary: appended events of allowed kinds keep a comment-free log
comment-free. -/
theorem no_comment_append {evs new : List TaskEvent}
    (h : ∀ e ∈ evs, e.event_type ≠ TaskEventType.CREATE_COMMENT)
    (hnew : ∀ e ∈ new, e.event_type ≠ TaskEventType.CREATE_COMMENT) :
    ∀ e ∈ evs ++ new, e.event_type ≠ TaskEventType.CREATE_COMMENT := by
  intro e he
  rcases List.mem_append.mp he with hm | hm
  · exact h e hm
  · exact hnew e hm

/-- No service command ever appends a comment-created event. -/
theorem applyOp_no_comment_event (db : DB) (op : Op)
    (h : ∀ e ∈ db.events, e.event_type ≠ TaskEventType.CREATE_COMMENT) :
    ∀ e ∈ (applyOp db op).events, e.event_type ≠ TaskEventType.CREATE_COMMENT := by
  cases op with
  | create id now p =>
    by_cases ht : p.task_type = TaskType.STATEFUL
    · by_cases hlen : (p.states.getD []).length < 2
      · simp only [applyOp, create_task, if_pos ht, if_pos hlen]
        exact h
      · simp only [applyOp, create_task, if_pos ht, if_neg hlen, DB.addEvent]
        refine no_comment_append h ?_
        intro e he
        rw [List.mem_singleton] at he
        subst he
        exact fun hc => TaskEventType.noConfusion hc
    · simp only [applyOp, create_task, if_neg ht, DB.addEvent]
      refine no_comment_append h ?_
      intro e he
      rw [List.mem_singleton] at he
      subst he
      exact fun hc => TaskEventType.noConfusion hc
  | update tid p =>
    simp only [applyOp]
    cases hf : db.tasks.find? (fun u => u.id == tid) with
    | none => simp only [update_task, hf]; exact h
    | some task =>
      simp only [update_task, hf, DB.replaceTask]
      exact h
  | changeStatus tid now p =>
    simp only [applyOp]
    cases hf : db.tasks.find? (fun u => u.id == tid) with
    | none => simp only [update_task_status, hf]; exact h
    | some task =>
      by_cases ht : task.task_type = TaskType.TODO
      · simp only [update_task_status, hf, if_pos ht, DB.addEvent, DB.replaceTask]
        refine no_comment_append h ?_
        intro e he
        rw [List.mem_singleton] at he
        subst he
        by_cases hdn : (p.status == "Done") = true
        · simp only [if_pos hdn]
          exact fun hc => TaskEventType.noConfusion hc
        · simp only [if_neg hdn]
          exact fun hc => TaskEventType.noConfusion hc
      · cases hidx : listIndex p.status (task.states.getD []) with
        | none => simp only [update_task_status, hf, if_neg ht, hidx]; exact h
        | some pos =>
          simp only [update_task_status, hf, if_neg ht, hidx]
          by_cases hd : (pos == (task.states.getD []).length - 1) = true
          · simp only [if_pos hd, DB.addEvent, DB.replaceTask, List.append_assoc]
            refine no_comment_append h ?_
            intro e he
            rcases List.mem_append.mp he with hm | hm <;>
              rw [List.mem_singleton] at hm <;> subst hm <;>
              exact fun hc => TaskEventType.noConfusion hc
          · simp only [if_neg hd, DB.addEvent, DB.replaceTask]
            refine no_comment_append h ?_
            intro e he
            rw [List.mem_singleton] at he
            subst he
            exact fun hc => TaskEventType.noConfusion hc
  | archive tid now =>
    simp only [applyOp]
    cases hf : db.tasks.find? (fun u => u.id == tid) with
    | none => simp only [archive_task, hf]; exact h
    | some task =>
      simp only [archive_task, hf, DB.addEvent, DB.replaceTask]
      refine no_comment_append h ?_
      intro e he
      rw [List.mem_singleton] at he
      subst he
      exact fun hc => TaskEventType.noConfusion hc
  | unarchive tid now =>
    simp only [applyOp]
    cases hf : db.tasks.find? (fun u => u.id == tid) with
    | none => simp only [unarchive_task, hf]; exact h
    | some task =>
      simp only [unarchive_task, hf, DB.addEvent, DB.replaceTask]
      refine no_comment_append h ?_
      intro e he
      rw [List.mem_singleton] at he
      subst he
      exact fun hc => TaskEventType.noConfusion hc
  | deleteTask tid =>
    simp only [applyOp]
    cases hf : db.tasks.find? (fun u => u.id == tid) with
    | none => simp only [delete_task, hf]; exact h
    | some task =>
      simp only [delete_task, hf]
      intro e he
      exact h e (List.mem_of_mem_filter he)
  | addComment tid now content =>
    simp only [applyOp]
    cases hf : db.tasks.find? (fun u => u.id == tid) with
    | none => simp only [add_task_comment, hf]; exact h
    | some task =>
      simp only [add_task_comment, hf]
      exact h

/-- C10: the add-comment operation appends the comment row but leaves the
event log untouched; no service operation ever emits a comment-created event;
hence for every database reachable through the service's operations alone the
report's comment count is zero, whatever the query moment and period. -/
theorem comments_leave_event_log_alone :
    (∀ (db : DB) (tid : Nat) (now : Int) (content : String),
      (applyOp db (Op.addComment tid now content)).events = db.events) ∧
    (∀ (db : DB) (t : Task) (tid : Nat) (now : Int) (content : String),
      db.tasks.find? (fun u => u.id == tid) = some t →
      add_task_comment db now tid content =
        .ok ({ db with comments :=
                 db.comments ++ [{ task_id := t.id, create_at := now, content := content }] },
             { task_id := t.id, create_at := now, content := content })) ∧
    (∀ ops : List Op, ∀ e ∈ (runOps ops).events,
      e.event_type ≠ TaskEventType.CREATE_COMMENT) ∧
    (∀ (ops : List Op) (now : Int) (period : ReportPeriod),
      (get_report (runOps ops).events now period).comments_count = 0) := by
  have hreach : ∀ ops : List Op, ∀ e ∈ (runOps ops).events,
      e.event_type ≠ TaskEventType.CREATE_COMMENT := by
    intro ops
    suffices hgen : ∀ db : DB,
        (∀ e ∈ db.events, e.event_type ≠ TaskEventType.CREATE_COMMENT) →
        ∀ e ∈ (ops.foldl applyOp db).events, e.event_type ≠ TaskEventType.CREATE_COMMENT by
      refine hgen DB.empty ?_
      intro e he
      simp [DB.empty] at he
    induction ops with
    | nil => intro db h; simpa using h
    | cons op rest ih =>
      intro db h
      exact ih (applyOp db op) (applyOp_no_comment_event db op h)
  refine ⟨?_, ?_, hreach, ?_⟩
  · intro db tid now content
    simp only [applyOp]
    cases hf : db.tasks.find? (fun u => u.id == tid) with
    | none => simp only [add_task_comment, hf]
    | some task => simp only [add_task_comment, hf]
  · intro db t tid now content hf
    simp only [add_task_comment, hf]
  · intro ops now period
    simp only [get_report]
    rw [List.countP_eq_zero]
    intro e he
    have := hreach ops e (List.mem_of_mem_filter he)
    simpa using this

/-- Witness for C10: a comment added to a freshly created task leaves the
event log at just the create event, and the report's comment count over the
resulting database is zero. -/
theorem comments_leave_event_log_alone_witness :
    (applyOp sampleDB (Op.addComment 0 5 "hello")).events = sampleDB.events ∧
    add_task_comment sampleDB 5 0 "hello" =
      .ok ({ sampleDB with comments :=
               sampleDB.comments ++ [{ task_id := sampleStateful.id, create_at := 5,
                                       content := "hello" }] },
           { task_id := sampleStateful.id, create_at := 5, content := "hello" }) ∧
    (get_report (runOps [Op.create 0 0 { content := "x" },
                         Op.addComment 0 5 "hello"]).events 5 ReportPeriod.month).comments_count
      = 0 :=
  ⟨comments_leave_event_log_alone.1 sampleDB 0 5 "hello",
   comments_leave_event_log_alone.2.1 sampleDB sampleStateful 0 5 "hello" (by decide),
   comments_leave_event_log_alone.2.2.2
     [Op.create 0 0 { content := "x" }, Op.addComment 0 5 "hello"] 5 ReportPeriod.month⟩

end Todoki
